import Mathlib

/-!
Shallow embedding of `src/runtime/body-parser.ts` (the request-body decoder):
the content-type dispatcher, the JSON decode adapter (per-field size check via
the reviver hook), and the streaming aggregation coordinator driven by form
decoder events (fields, files, file-count ceiling, finish).

The external collaborators (busboy tokenizer, body-parser JSON decoder,
attr-accept matcher, bytes size formatter, file system) are modelled at their
narrow interfaces: the form decoder as a list of events, the JSON decoder as a
parse result plus the documented bottom-up reviver invocation order, the mime
matcher as a boolean-valued configuration field, and disk writes as a recorded
list of destination paths.
-/

namespace BodyParser

/-- A violation record, mirroring the `errors` array entries
`{ name: string; message: string }` (body-parser.ts line 84). -/
structure Violation where
  name : String
  message : String
deriving Repr, DecidableEq

/-- Models the external `bytes` formatter used in violation messages.
For byte counts below 1024 the library prints the plain count followed by
a unit suffix, which is the only range our concrete inputs exercise. -/
def bytesFormat (n : Nat) : String := toString n ++ "B"

/-- The `File` value built per file part (body-parser.ts lines 18-23 and
156-160): name, size (updated as chunks arrive), mime type, and the
destination path when written to disk. -/
structure File where
  name : String
  size : Nat
  type : String
  path : Option String := none
deriving Repr, DecidableEq

/-- The normalized configuration of one decode operation: the `limits` after
size-string parsing (lines 87-93; the external `bytes.parse` is modelled as
already applied, and a `fileCount` of 0 normalizes to `none` because
`limits.fileCount || undefined` treats 0 as falsy), the `uploadDir` option,
whether an `onFile` handler was supplied, and the external attr-accept
matcher as a boolean function. -/
structure Config where
  maxFileCount : Option Nat := none
  maxFileSize : Option Nat := none
  maxFieldSize : Option Nat := none
  maxJsonSize : Option Nat := none
  mimeType : Option String := none
  uploadDir : Option String := none
  hasOnFile : Bool := false
  accepts : File → String → Bool := fun _ _ => true

/-- JS `s.startsWith(pre)`: a case-sensitive prefix match on the declared
string (body-parser.ts lines 96, 101). -/
def startsWith (s pre : String) : Bool := pre.data.isPrefixOf s.data

/-- The allow-list of recognized content types (body-parser.ts lines 71-75). -/
def ACCEPT : List String :=
  ["application/json", "application/x-www-form-urlencoded", "multipart/form-data"]

/-- The two decode pipelines behind the dispatcher. -/
inductive Route where
  | json
  | form
deriving Repr, DecidableEq

/-- The content-type dispatcher (body-parser.ts lines 95-101): `none` models
an absent header (and the empty header value, which is falsy in JS and is
likewise rejected by the allow-list since no accepted type is a prefix of
the empty string); otherwise a case-sensitive prefix match against the
allow-list, with `application/json` routed to the JSON pipeline and the two
form types to the busboy pipeline. A `none` result models returning `null`
(the Skip outcome). -/
def dispatch : Option String → Option Route
  | none => none
  | some ct =>
    if ACCEPT.any (fun t => startsWith ct t) then
      if startsWith ct "application/json" then some Route.json else some Route.form
    else none

/-- A value assigned into the result tree: a text field or a file descriptor. -/
inductive FieldValue where
  | text (s : String)
  | file (f : File)
deriving Repr, DecidableEq

/-- The mutable state of one form/multipart decode operation: the `errors`
array (line 84), the result tree `data` (line 151) modelled as the ordered
sequence of `setField` invocations (the field path resolver itself lives in
`set-field.ts`, outside the embedded core, and no claim here depends on its
internal structure — only on whether an assignment happened), plus the
observable per-file side-work: `onFile` handler invocations (line 174) and
disk-write destinations (line 182). -/
structure ParserState where
  errors : List Violation := []
  assignments : List (String × FieldValue) := []
  onFileCalls : List (String × File) := []
  diskWrites : List String := []
deriving Repr, DecidableEq

/-- The state at the start of one decode operation. -/
def initState : ParserState := {}

/-- The guard on registering the busboy `file` handler (body-parser.ts line
154): `maxFileCount || options?.uploadDir || options?.onFile`. -/
def fileHandlerRegistered (cfg : Config) : Bool :=
  cfg.maxFileCount.isSome || cfg.uploadDir.isSome || cfg.hasOnFile

/-- `options?.uploadDir || os.tmpdir()` (line 82); the external `os.tmpdir()`
is modelled as a fixed directory. -/
def effectiveUploadDir (cfg : Config) : String := (cfg.uploadDir).getD "/tmp"

/-- Modelled from the spec: the uniquely named destination path inside the
upload directory ("uniqueness via a collision-resistant per-file suffix",
source line 178-181 uses `path.basename(field) + picoid(17)`); the external
random suffix is abstracted as a fixed placeholder since no claim inspects
the path contents. -/
def uploadPath (dir field : String) : String := dir ++ "/" ++ field ++ "_id"

/-- The mime rejection test (line 165): `limits.mimeType && !accepts(value,
limits.mimeType)` — only when a pattern is configured, and then the external
attr-accept matcher decides. -/
def mimeRejected (cfg : Config) (value : File) : Bool :=
  match cfg.mimeType with
  | some pattern => !(cfg.accepts value pattern)
  | none => false

/-- The size field after a sequence of `data` chunks (line 185-187):
`value.size = data.length` overwrites the size with each chunk's length, so
the result is the last chunk's length, 0 when no chunk arrived. -/
def sizeAfterChunks (chunks : List Nat) : Nat :=
  chunks.foldl (fun _ len => len) 0

/-- The violation pushed on mime rejection (lines 166-169). -/
def fileTypeRejected (name pattern : String) : Violation :=
  ⟨"FILE_TYPE_REJECTED", "file \"" ++ name ++ "\" is not of type \"" ++ pattern ++ "\""⟩

/-- The violation pushed on file truncation (lines 191-196); `bytes(maxFileSize
|| 0)` prints 0 when no limit is configured. -/
def fileSizeExceeded (name : String) (maxFileSize : Option Nat) : Violation :=
  ⟨"FILE_SIZE_EXCEEDED", "file \"" ++ name ++ "\" exceeds " ++ bytesFormat (maxFileSize.getD 0)⟩

/-- The violation pushed on field truncation (lines 206-209) and by the JSON
reviver (lines 110-113). -/
def fieldSizeExceeded (field : String) (maxFieldSize : Option Nat) : Violation :=
  ⟨"FIELD_SIZE_EXCEEDED", "field \"" ++ field ++ "\" exceeds " ++ bytesFormat (maxFieldSize.getD 0)⟩

/-- The violation pushed on the `filesLimit` event (lines 216-219); the JS
template interpolates the word undefined when no count is configured. -/
def fileCountExceeded (maxFileCount : Option Nat) : Violation :=
  ⟨"FILE_COUNT_EXCEEDED", "file count exceeds " ++
    (match maxFileCount with | some n => toString n | none => "undefined")⟩

/-- The finalized file descriptor delivered at stream end: `value.path` is set
only in the disk-write branch (line 178), and `value.size` holds the last
observed chunk length (lines 185-187). -/
def finalFile (cfg : Config) (field : String) (value : File) (chunks : List Nat) : File :=
  let value1 :=
    if cfg.hasOnFile then value
    else { value with path := some (uploadPath (effectiveUploadDir cfg) field) }
  { value1 with size := sizeAfterChunks chunks }

/-- Processing of an accepted (non-empty-filename, mime-accepted) file part
(lines 173-200): invoke the `onFile` handler with the descriptor as it stands
at part begin, or record a disk write to the unique destination; then at
stream end either push `FILE_SIZE_EXCEEDED` (when busboy truncated the
stream) or assign the finalized descriptor at the field's path. -/
def acceptedFile (cfg : Config) (s : ParserState) (field : String) (value : File)
    (chunks : List Nat) (truncated : Bool) : ParserState :=
  let s1 :=
    if cfg.hasOnFile then { s with onFileCalls := s.onFileCalls ++ [(field, value)] }
    else { s with diskWrites := s.diskWrites ++ [uploadPath (effectiveUploadDir cfg) field] }
  let value1 := finalFile cfg field value chunks
  if truncated then
    { s1 with errors := s1.errors ++ [fileSizeExceeded value1.name cfg.maxFileSize] }
  else
    { s1 with assignments := s1.assignments ++ [(field, FieldValue.file value1)] }

/-- One whole file part, as observed by the busboy `file` handler (lines
153-202): nothing at all happens when the handler is not registered (line
154); an empty filename is drained and skipped (line 163); a configured mime
pattern that rejects the part pushes one violation and drains (lines
165-171); otherwise the part is processed as an accepted file. -/
def processFile (cfg : Config) (s : ParserState) (field filename mimeType : String)
    (chunks : List Nat) (truncated : Bool) : ParserState :=
  if fileHandlerRegistered cfg = false then s else
  let value : File := { name := filename, type := mimeType, size := 0 }
  if value.name = "" then s
  else if mimeRejected cfg value then
    { s with errors := s.errors ++ [fileTypeRejected value.name (cfg.mimeType.getD "")] }
  else acceptedFile cfg s field value chunks truncated

/-- The busboy `field` handler (lines 204-213): a truncated name or value
pushes one `FIELD_SIZE_EXCEEDED` violation and skips assignment; otherwise
the value is assigned at the field's path. -/
def processField (cfg : Config) (s : ParserState) (field value : String)
    (nameTruncated valueTruncated : Bool) : ParserState :=
  if nameTruncated || valueTruncated then
    { s with errors := s.errors ++ [fieldSizeExceeded field cfg.maxFieldSize] }
  else
    { s with assignments := s.assignments ++ [(field, FieldValue.text value)] }

/-- The terminal outcome of a form/multipart decode operation: `reject({
errors })` carries only the violation records, `resolve(data)` carries only
the result tree. -/
inductive Outcome where
  | success (assignments : List (String × FieldValue))
  | failure (errors : List Violation)
deriving Repr, DecidableEq

/-- A settlement: the outcome together with how many scheduling turns past the
`finish` event it is delivered (0 = synchronously inside the `finish`
handler, 1 = pushed to the next frame by `setTimeout(..., 0)`). -/
structure Settlement where
  outcome : Outcome
  deferredTurns : Nat
deriving Repr, DecidableEq

/-- The `finish` handler (lines 222-233): with any recorded violation the
promise is rejected synchronously with exactly the errors array; otherwise
resolution with the result tree is pushed one scheduling turn out so that
`onFile` promises get an opportunity to complete first (their completion is
not awaited). -/
def settle (s : ParserState) : Settlement :=
  if s.errors.length > 0 then ⟨Outcome.failure s.errors, 0⟩
  else ⟨Outcome.success s.assignments, 1⟩

/-- The events emitted by the external form decoder (spec section 6): a
non-file field with truncation flags, a whole file part (field name, declared
filename and mime type, the data chunk lengths, and whether busboy truncated
the stream at the size limit), the file-count ceiling, and end of stream. -/
inductive Event where
  | field (name value : String) (nameTruncated valueTruncated : Bool)
  | file (field filename mimeType : String) (chunks : List Nat) (truncated : Bool)
  | filesLimit
  | finish
deriving Repr, DecidableEq

/-- Whether an event is a file part. -/
def Event.isFileEvent : Event → Bool
  | .file _ _ _ _ _ => true
  | _ => false

/-- One step of the streaming aggregation coordinator: every event before
`finish` only updates the state (no settlement); `finish` settles. -/
def step (cfg : Config) (s : ParserState) : Event → ParserState × Option Settlement
  | .field name value nt vt => (processField cfg s name value nt vt, none)
  | .file field filename mimeType chunks truncated =>
      (processFile cfg s field filename mimeType chunks truncated, none)
  | .filesLimit => ({ s with errors := s.errors ++ [fileCountExceeded cfg.maxFileCount] }, none)
  | .finish => (s, some (settle s))

/-- Run the coordinator over the decoder's event sequence; the operation
settles at the first `finish` event and the promise machinery ignores
anything after, an event list without `finish` never settles. -/
def runEvents (cfg : Config) (s : ParserState) : List Event → ParserState × Option Settlement
  | [] => (s, none)
  | e :: rest =>
    match step cfg s e with
    | (s1, some out) => (s1, some out)
    | (s1, none) => runEvents cfg s1 rest

/-- One file part as it sits in the multipart body, before the form decoder
turns it into events. -/
structure Part where
  field : String
  filename : String
  mimeType : String
  chunks : List Nat
  truncated : Bool
deriving Repr, DecidableEq

/-- The file event for a part. -/
def Part.toEvent (p : Part) : Event :=
  Event.file p.field p.filename p.mimeType p.chunks p.truncated

/-- Modelled from the spec (section 6, the external form decoder) together
with the source's own doc comment on `limits.fileCount` (body-parser.ts lines
27-31: "The maximum number of files a user can upload. Note that empty file
fields, still count against the file count limit."): busboy emits one file
event per file part — counting every part, whether or not its filename is
empty — while the running count stays within the configured limit, and a
single `filesLimit` event once a part beyond the limit arrives; parts beyond
the limit are skipped. Without a configured count every part is emitted. -/
def busboyFileEvents (maxFileCount : Option Nat) (parts : List Part) : List Event :=
  match maxFileCount with
  | none => parts.map Part.toEvent
  | some m =>
      (parts.take m).map Part.toEvent ++
        (if m < parts.length then [Event.filesLimit] else [])

/-- JSON values, as delivered by the external JSON decoder. -/
inductive Json where
  | str (s : String)
  | num (n : Int)
  | bool (b : Bool)
  | null
  | arr (elems : List Json)
  | obj (members : List (String × Json))
deriving Repr

mutual

/-- The sequence of (key, value) invocations that the external JSON decoder
performs on the reviver hook for the value stored under `key`, per the
ECMA-262 `InternalizeJSONProperty` order used by `JSON.parse`: children
first (array elements under their decimal index strings, object members in
member order), then the value itself; the root is visited last under the
key "". -/
def reviverCalls (key : String) (j : Json) : List (String × Json) :=
  match j with
  | .arr es => reviverCallsArr 0 es ++ [(key, j)]
  | .obj ms => reviverCallsObj ms ++ [(key, j)]
  | j => [(key, j)]

/-- Reviver invocations for the elements of an array, starting at index `i`. -/
def reviverCallsArr (i : Nat) : List Json → List (String × Json)
  | [] => []
  | e :: rest => reviverCalls (toString i) e ++ reviverCallsArr (i + 1) rest

/-- Reviver invocations for the members of an object, in member order. -/
def reviverCallsObj : List (String × Json) → List (String × Json)
  | [] => []
  | (k, v) :: rest => reviverCalls k v ++ reviverCallsObj rest

end

/-- The test `/[0-9]+/.test(key)` (body-parser.ts lines 109 and 116): an
unanchored regex search, true exactly when the key contains at least one
decimal digit anywhere. -/
def keyIsIndexLike (key : String) : Bool := key.data.any Char.isDigit

/-- One invocation of the reviver closure installed when a field-size limit is
configured (lines 107-118), threading the rolling `lastKey` variable and the
`errors` array: an over-long string value pushes one `FIELD_SIZE_EXCEEDED`
violation attributed to the key itself when the key has no digit, and to
`lastKey.key` otherwise; then `lastKey` is updated to the key unless the key
contains a digit. `lastKey` starts out as the uninitialized JS variable,
which the template literal prints as the word undefined. -/
def reviverStep (maxFieldSize : Nat) (st : String × List Violation)
    (kv : String × Json) : String × List Violation :=
  let errs1 :=
    match kv.2 with
    | .str s =>
        if maxFieldSize < s.length then
          st.2 ++ [fieldSizeExceeded
            (if keyIsIndexLike kv.1 then st.1 ++ "." ++ kv.1 else kv.1)
            (some maxFieldSize)]
        else st.2
    | _ => st.2
  (if keyIsIndexLike kv.1 then st.1 else kv.1, errs1)

/-- The violations collected by the reviver over a whole parsed document. -/
def jsonFieldSizeErrors (maxFieldSize : Nat) (body : Json) : List Violation :=
  ((reviverCalls "" body).foldl (reviverStep maxFieldSize) ("undefined", [])).2

/-- Whether a reviver invocation carries a string value longer than the
field-size limit. -/
def oversizedCall (maxFieldSize : Nat) (kv : String × Json) : Bool :=
  match kv.2 with
  | .str s => maxFieldSize < s.length
  | _ => false

/-- The number of oversized string values in a document: `reviverCalls` lists
every sub-value exactly once, so counting its oversized string entries counts
the string-valued leaves of the structure whose length exceeds the limit. -/
def oversizedLeaves (maxFieldSize : Nat) (body : Json) : Nat :=
  (reviverCalls "" body).countP (oversizedCall maxFieldSize)

/-- The result handed to the `jsonParser` callback (lines 122-137): either the
parsed body on `req.body`, or an error whose `type` field distinguishes the
size-limit rejection `entity.too.large` from other decoder failures (in
which case the body was never parsed and the reviver never ran). -/
inductive JsonParseResult where
  | ok (body : Json)
  | err (errorType : String)

/-- What `req.body` holds when the callback resolves: the parsed structure on
success, nothing when the decoder failed. -/
def parsedBody : JsonParseResult → Option Json
  | .ok body => some body
  | .err _ => none

/-- The `errors` array as it stands inside the `jsonParser` callback (lines
123-129): the reviver's accumulated violations when parsing succeeded (and a
field-size limit was configured), plus one `JSON_SIZE_EXCEEDED` when the
decoder rejected the body as `entity.too.large`. -/
def jsonRouteErrors (maxFieldSize maxJsonSize : Option Nat) (r : JsonParseResult) :
    List Violation :=
  match r with
  | .ok body =>
      match maxFieldSize with
      | some mfs => jsonFieldSizeErrors mfs body
      | none => []
  | .err t =>
      if t = "entity.too.large" then
        [⟨"JSON_SIZE_EXCEEDED", "json object exceeds " ++ bytesFormat (maxJsonSize.getD 0)⟩]
      else []

/-- The outcome of the JSON route: `resolve(req.body)` or `reject({ errors })`
(lines 131-136); a decoder failure other than the size limit records no
violation, so the promise resolves with the unset body. -/
inductive JsonOutcome where
  | success (body : Option Json)
  | failure (errors : List Violation)

/-- The JSON route (lines 101-137): run the external decoder with the reviver
installed, then fail with exactly the accumulated violations when any exist,
otherwise resolve with the body. -/
def jsonRoute (maxFieldSize maxJsonSize : Option Nat) (r : JsonParseResult) : JsonOutcome :=
  if (jsonRouteErrors maxFieldSize maxJsonSize r).length > 0 then
    JsonOutcome.failure (jsonRouteErrors maxFieldSize maxJsonSize r)
  else JsonOutcome.success (parsedBody r)

/-- The overall result of one `bodyparser` call: `null` (Skip) when the
content type is unrecognized or absent, otherwise the outcome of the chosen
pipeline. -/
inductive BodyParserResult where
  | skip
  | json (o : JsonOutcome)
  | form (r : ParserState × Option Settlement)

/-- The whole entry point (lines 77-237): dispatch on the declared content
type, then run the JSON pipeline or the busboy-driven pipeline. -/
def bodyparser (cfg : Config) (contentType : Option String)
    (jsonResult : JsonParseResult) (events : List Event) : BodyParserResult :=
  match dispatch contentType with
  | none => BodyParserResult.skip
  | some Route.json =>
      BodyParserResult.json (jsonRoute cfg.maxFieldSize cfg.maxJsonSize jsonResult)
  | some Route.form => BodyParserResult.form (runEvents cfg initState events)

/-! ## Helper lemmas -/

/-- Two prefixes of the same list are comparable. -/
theorem isPrefixOf_comparable {α : Type} [BEq α] [LawfulBEq α]
    (p q s : List α) (hp : p.isPrefixOf s = true) (hq : q.isPrefixOf s = true) :
    p.isPrefixOf q = true ∨ q.isPrefixOf p = true := by
  simp only [List.isPrefixOf_iff_prefix] at hp hq ⊢
  exact List.prefix_or_prefix_of_prefix hp hq

/-- The dispatcher skips exactly when no accepted content type is a prefix of
the declared one. -/
theorem dispatch_eq_none_iff (ct : String) :
    dispatch (some ct) = none ↔ ∀ t ∈ ACCEPT, startsWith ct t = false := by
  have hd : dispatch (some ct)
      = if (ACCEPT.any fun t => startsWith ct t) = true then
          (if startsWith ct "application/json" = true then some Route.json
           else some Route.form)
        else none := rfl
  rw [hd]
  by_cases h : (ACCEPT.any fun t => startsWith ct t) = true
  · rw [if_pos h]
    rw [List.any_eq_true] at h
    obtain ⟨t, ht, hst⟩ := h
    constructor
    · intro hc
      split at hc <;> simp at hc
    · intro hall
      exact absurd hst (by simp [hall t ht])
  · rw [if_neg h]
    simp only [List.any_eq_true, not_exists, not_and] at h
    constructor
    · intro _ t ht
      have := h t ht
      simp at this
      exact this
    · intro _; rfl

/-- The overall entry point skips exactly when the dispatcher does. -/
theorem bodyparser_skip_iff (cfg : Config) (ct : Option String) (jr : JsonParseResult)
    (evs : List Event) :
    bodyparser cfg ct jr evs = BodyParserResult.skip ↔ dispatch ct = none := by
  unfold bodyparser
  cases hd : dispatch ct with
  | none => simp
  | some r => cases r <;> simp

/-- A settlement produced by a run is the settlement of the final state. -/
theorem runEvents_settle (cfg : Config) (events : List Event) :
    ∀ s s1 st, runEvents cfg s events = (s1, some st) → st = settle s1 := by
  induction events with
  | nil => intro s s1 st h; simp [runEvents] at h
  | cons e rest ih =>
    intro s s1 st h
    cases e with
    | finish =>
      simp [runEvents, step] at h
      rw [← h.1]
      exact h.2.symm
    | field name value nt vt => exact ih _ _ _ h
    | file f fn mt ch tr => exact ih _ _ _ h
    | filesLimit => exact ih _ _ _ h

/-- No event before `finish` produces a settlement. -/
theorem step_no_settle (cfg : Config) (s : ParserState) (e : Event)
    (h : e ≠ Event.finish) : (step cfg s e).2 = none := by
  cases e with
  | finish => exact absurd rfl h
  | field name value nt vt => rfl
  | file f fn mt ch tr => rfl
  | filesLimit => rfl

/-- A file event only ever appends to the violation collection. -/
theorem processFile_errors_mono (cfg : Config) (s : ParserState)
    (field filename mimeType : String) (chunks : List Nat) (truncated : Bool) :
    ∃ new, (processFile cfg s field filename mimeType chunks truncated).errors
      = s.errors ++ new := by
  by_cases h1 : fileHandlerRegistered cfg = false
  · exact ⟨[], by simp [processFile, h1]⟩
  by_cases h2 : filename = ""
  · exact ⟨[], by simp [processFile, h1, h2]⟩
  by_cases h3 : mimeRejected cfg ⟨filename, 0, mimeType, none⟩ = true
  · exact ⟨[fileTypeRejected filename (cfg.mimeType.getD "")],
      by simp [processFile, h1, h2, h3]⟩
  by_cases h4 : truncated
  · exact ⟨[fileSizeExceeded filename cfg.maxFileSize], by
      by_cases h5 : cfg.hasOnFile <;>
        simp [processFile, acceptedFile, finalFile, h1, h2, h3, h4, h5]⟩
  · exact ⟨[], by
      by_cases h5 : cfg.hasOnFile <;>
        simp [processFile, acceptedFile, finalFile, h1, h2, h3, h4, h5]⟩

/-- A field event only ever appends to the violation collection. -/
theorem processField_errors_mono (cfg : Config) (s : ParserState) (field value : String)
    (nt vt : Bool) :
    ∃ new, (processField cfg s field value nt vt).errors = s.errors ++ new := by
  unfold processField
  split
  · exact ⟨_, rfl⟩
  · exact ⟨[], by simp⟩

/-- Every step only ever appends to the violation collection. -/
theorem step_errors_mono (cfg : Config) (s : ParserState) (e : Event) :
    ∃ new, (step cfg s e).1.errors = s.errors ++ new := by
  cases e with
  | field name value nt vt => exact processField_errors_mono cfg s name value nt vt
  | file f fn mt ch tr => exact processFile_errors_mono cfg s f fn mt ch tr
  | filesLimit => exact ⟨_, rfl⟩
  | finish => exact ⟨[], by simp [step]⟩

/-- A run settles exactly when the event sequence holds a `finish` event. -/
theorem runEvents_settles_iff (cfg : Config) (events : List Event) :
    ∀ s, (runEvents cfg s events).2.isSome = true ↔ Event.finish ∈ events := by
  induction events with
  | nil => intro s; simp [runEvents]
  | cons e rest ih =>
    intro s
    cases e with
    | finish => simp [runEvents, step]
    | field name value nt vt => simp [runEvents, step, ih]
    | file f fn mt ch tr => simp [runEvents, step, ih]
    | filesLimit => simp [runEvents, step, ih]

/-- One reviver invocation either leaves the violation list alone or appends
exactly one field-size violation, depending on whether the value is an
oversized string. -/
theorem reviverStep_snd (mfs : Nat) (st : String × List Violation) (kv : String × Json) :
    (reviverStep mfs st kv).2
      = st.2 ++ (if oversizedCall mfs kv then
          [fieldSizeExceeded
            (if keyIsIndexLike kv.1 then st.1 ++ "." ++ kv.1 else kv.1) (some mfs)]
        else []) := by
  obtain ⟨k, w⟩ := kv
  cases w with
  | str s =>
    by_cases hlen : mfs < s.length <;> simp [reviverStep, oversizedCall, hlen]
  | num n => simp [reviverStep, oversizedCall]
  | bool b => simp [reviverStep, oversizedCall]
  | null => simp [reviverStep, oversizedCall]
  | arr es => simp [reviverStep, oversizedCall]
  | obj ms => simp [reviverStep, oversizedCall]

/-- Folding the reviver over any invocation sequence appends exactly one
violation per oversized string value. -/
theorem foldl_reviverStep_length (mfs : Nat) (l : List (String × Json)) :
    ∀ st : String × List Violation, ((l.foldl (reviverStep mfs) st).2).length
      = st.2.length + l.countP (oversizedCall mfs) := by
  induction l with
  | nil => intro st; simp
  | cons kv rest ih =>
    intro st
    rw [List.foldl_cons, List.countP_cons, ih, reviverStep_snd]
    by_cases h : oversizedCall mfs kv = true
    · simp [h]; omega
    · simp [h]

/-- Every violation the reviver fold adds is a field-size violation. -/
theorem foldl_reviverStep_names (mfs : Nat) (l : List (String × Json)) :
    ∀ (st : String × List Violation) (v : Violation),
      v ∈ (l.foldl (reviverStep mfs) st).2 →
      v ∈ st.2 ∨ v.name = "FIELD_SIZE_EXCEEDED" := by
  induction l with
  | nil => intro st v hv; exact Or.inl (by simpa using hv)
  | cons kv rest ih =>
    intro st v hv
    rw [List.foldl_cons] at hv
    rcases ih _ v hv with hmem | hname
    · rw [reviverStep_snd] at hmem
      rcases List.mem_append.mp hmem with hm | hm
      · exact Or.inl hm
      · right
        by_cases h : oversizedCall mfs kv = true
        · rw [h, if_pos rfl] at hm
          rw [List.mem_singleton.mp hm]
          rfl
        · rw [if_neg h] at hm
          exact absurd hm (List.not_mem_nil v)
    · exact Or.inr hname

/-- The size cursor after one more chunk is that chunk's length. -/
theorem sizeAfterChunks_append (pre : List Nat) (c : Nat) :
    sizeAfterChunks (pre ++ [c]) = c := by
  simp [sizeAfterChunks, List.foldl_append]

/-- The size cursor over a non-empty chunk sequence is the last chunk. -/
theorem sizeAfterChunks_last : ∀ (l : List Nat) (h : l ≠ []),
    sizeAfterChunks l = l.getLast h := by
  intro l
  induction l with
  | nil => intro h; exact absurd rfl h
  | cons a t ih =>
    intro h
    cases t with
    | nil => rfl
    | cons b t2 =>
      have h2 : (b :: t2) ≠ [] := by simp
      rw [show sizeAfterChunks (a :: b :: t2) = sizeAfterChunks (b :: t2) from rfl, ih h2]
      exact (List.getLast_cons h2).symm

/-- The dispatcher on a present header, as one equation. -/
theorem dispatch_some (ct : String) :
    dispatch (some ct)
      = if (ACCEPT.any fun t => startsWith ct t) = true then
          (if startsWith ct "application/json" = true then some Route.json
           else some Route.form)
        else none := rfl

/-- Skipping file events does not change a run when the file handler guard is
off. -/
theorem runEvents_ignores_files (cfg : Config) (hreg : fileHandlerRegistered cfg = false) :
    ∀ (events : List Event) (s : ParserState),
      runEvents cfg s events
        = runEvents cfg s (events.filter fun e => !(Event.isFileEvent e)) := by
  intro events
  induction events with
  | nil => intro s; rfl
  | cons e rest ih =>
    intro s
    cases e with
    | file f fn mt ch tr =>
      have hnop : processFile cfg s f fn mt ch tr = s := by simp [processFile, hreg]
      show runEvents cfg (processFile cfg s f fn mt ch tr) rest
          = runEvents cfg s (rest.filter fun e => !(Event.isFileEvent e))
      rw [hnop]
      exact ih s
    | field name value nt vt =>
      show runEvents cfg (processField cfg s name value nt vt) rest
          = runEvents cfg (processField cfg s name value nt vt)
              (rest.filter fun e => !(Event.isFileEvent e))
      exact ih _
    | filesLimit =>
      show runEvents cfg _ rest
          = runEvents cfg _ (rest.filter fun e => !(Event.isFileEvent e))
      exact ih _
    | finish => rfl

/-! ## Claims -/

/-- Claim C1: for every decode operation (JSON route or form/multipart route),
the delivered outcome is a failure carrying exactly the accumulated violation
records if and only if at least one violation was recorded during the
operation, and otherwise a success carrying the result tree; the failure
constructor carries only the violations, so no assigned fields or files are
delivered to the caller when any violation was recorded. -/
theorem outcome_failure_iff_violations (cfg : Config) (events : List Event)
    (s1 : ParserState) (st : Settlement) (mfs mjs : Option Nat) (r : JsonParseResult)
    (h : runEvents cfg initState events = (s1, some st)) :
    (st.outcome = Outcome.failure s1.errors ↔ s1.errors ≠ [])
  ∧ (s1.errors = [] → st.outcome = Outcome.success s1.assignments)
  ∧ (jsonRoute mfs mjs r = JsonOutcome.failure (jsonRouteErrors mfs mjs r)
      ↔ jsonRouteErrors mfs mjs r ≠ [])
  ∧ (jsonRouteErrors mfs mjs r = []
      → jsonRoute mfs mjs r = JsonOutcome.success (parsedBody r)) := by
  have hst : st = settle s1 := runEvents_settle cfg events initState s1 st h
  subst hst
  refine ⟨⟨?_, ?_⟩, ?_, ⟨?_, ?_⟩, ?_⟩
  · intro hout hnil
    rw [hnil] at hout
    simp [settle, hnil] at hout
  · intro hne
    simp [settle, List.length_pos.mpr hne]
  · intro hnil
    simp [settle, hnil]
  · intro hout hnil
    simp [jsonRoute, hnil] at hout
  · intro hne
    simp [jsonRoute, List.length_pos.mpr hne]
  · intro hnil
    simp [jsonRoute, hnil]

/-- Witness for C1: a run with one clean field settles as a success carrying
that assignment. -/
theorem outcome_failure_iff_violations_witness :
    (Settlement.mk (Outcome.success [("a", FieldValue.text "v")]) 1).outcome
      = Outcome.success (ParserState.assignments
          { assignments := [("a", FieldValue.text "v")] }) :=
  (outcome_failure_iff_violations {} [Event.field "a" "v" false false, Event.finish]
    { assignments := [("a", FieldValue.text "v")] }
    ⟨Outcome.success [("a", FieldValue.text "v")], 1⟩
    none none (JsonParseResult.ok Json.null) rfl).2.1 rfl

/-- Claim C2: the dispatcher recognizes exactly the three content-type
families — application/json, application/x-www-form-urlencoded,
multipart/form-data — by a case-sensitive prefix match on the declared
Content-Type header; every other declared type, and an absent header, yields
the distinct Skip outcome, never a Success and never a Failure. -/
theorem dispatch_three_families :
    ACCEPT = ["application/json", "application/x-www-form-urlencoded",
              "multipart/form-data"]
  ∧ (∀ cfg jr evs, bodyparser cfg none jr evs = BodyParserResult.skip)
  ∧ (∀ cfg ct jr evs, bodyparser cfg (some ct) jr evs = BodyParserResult.skip
      ↔ ∀ t ∈ ACCEPT, startsWith ct t = false)
  ∧ (∀ ct, startsWith ct "application/json" = true
      → dispatch (some ct) = some Route.json)
  ∧ (∀ ct, startsWith ct "application/x-www-form-urlencoded" = true
        ∨ startsWith ct "multipart/form-data" = true
      → dispatch (some ct) = some Route.form)
  ∧ dispatch (some "Application/JSON") = none := by
  refine ⟨rfl, fun cfg jr evs => rfl, ?_, ?_, ?_, rfl⟩
  · intro cfg ct jr evs
    rw [bodyparser_skip_iff]
    exact dispatch_eq_none_iff ct
  · intro ct h
    have hany : (ACCEPT.any fun t => startsWith ct t) = true :=
      List.any_eq_true.mpr ⟨"application/json", by simp [ACCEPT], h⟩
    rw [dispatch_some, if_pos hany, if_pos h]
  · intro ct h
    have hany : (ACCEPT.any fun t => startsWith ct t) = true := by
      rcases h with h | h
      · exact List.any_eq_true.mpr ⟨"application/x-www-form-urlencoded", by simp [ACCEPT], h⟩
      · exact List.any_eq_true.mpr ⟨"multipart/form-data", by simp [ACCEPT], h⟩
    have hnjson : ¬ startsWith ct "application/json" = true := by
      intro hj
      rcases h with h | h
      · rcases isPrefixOf_comparable _ _ _ hj h with hc | hc <;> exact absurd hc (by decide)
      · rcases isPrefixOf_comparable _ _ _ hj h with hc | hc <;> exact absurd hc (by decide)
    rw [dispatch_some, if_pos hany, if_neg hnjson]

/-- Witness for C2: a form content type with parameters routes to the form
pipeline, and an unknown type yields Skip. -/
theorem dispatch_three_families_witness :
    dispatch (some "multipart/form-data; boundary=x") = some Route.form
  ∧ (bodyparser {} (some "text/plain") (JsonParseResult.ok Json.null) []
      = BodyParserResult.skip) :=
  ⟨dispatch_three_families.2.2.2.2.1 "multipart/form-data; boundary=x"
      (Or.inr (by decide)),
   (dispatch_three_families.2.2.1 {} "text/plain" (JsonParseResult.ok Json.null) []).mpr
      (by decide)⟩

/-- Claim C3: a truncated file part appends one FILE_SIZE_EXCEEDED violation
and is not assigned into the result tree, an untruncated one is assigned at
its field path; a field whose name or value was truncated appends one
FIELD_SIZE_EXCEEDED violation and is not assigned, an untruncated one is
assigned. A truncated field or file never appears in the result tree. -/
theorem truncated_parts_dropped (cfg : Config) (s : ParserState)
    (field filename mimeType fieldVal : String) (chunks : List Nat) (nt vt : Bool)
    (hreg : fileHandlerRegistered cfg = true) (hname : filename ≠ "")
    (hmime : mimeRejected cfg ⟨filename, 0, mimeType, none⟩ = false) :
    ((processFile cfg s field filename mimeType chunks true).errors
        = s.errors ++ [fileSizeExceeded filename cfg.maxFileSize]
      ∧ (processFile cfg s field filename mimeType chunks true).assignments
        = s.assignments)
  ∧ ((processFile cfg s field filename mimeType chunks false).errors = s.errors
      ∧ (processFile cfg s field filename mimeType chunks false).assignments
        = s.assignments ++ [(field, FieldValue.file
            (finalFile cfg field ⟨filename, 0, mimeType, none⟩ chunks))])
  ∧ ((nt || vt) = true → processField cfg s field fieldVal nt vt
        = { s with errors := s.errors ++ [fieldSizeExceeded field cfg.maxFieldSize] })
  ∧ ((nt || vt) = false → processField cfg s field fieldVal nt vt
        = { s with assignments := s.assignments ++ [(field, FieldValue.text fieldVal)] }) := by
  refine ⟨⟨?_, ?_⟩, ⟨?_, ?_⟩, ?_, ?_⟩
  · by_cases h5 : cfg.hasOnFile <;>
      simp [processFile, acceptedFile, finalFile, hreg, hname, hmime, h5]
  · by_cases h5 : cfg.hasOnFile <;>
      simp [processFile, acceptedFile, finalFile, hreg, hname, hmime, h5]
  · by_cases h5 : cfg.hasOnFile <;>
      simp [processFile, acceptedFile, finalFile, hreg, hname, hmime, h5]
  · by_cases h5 : cfg.hasOnFile <;>
      simp [processFile, acceptedFile, finalFile, hreg, hname, hmime, h5]
  · intro h
    simp [processField, h]
  · intro h
    simp [processField, h]

/-- Witness for C3: with a file-count limit configured (so the handler is
registered), a truncated file part yields exactly one size violation and no
assignment. -/
theorem truncated_parts_dropped_witness :
    (processFile { maxFileCount := some 2 } initState "f" "a.txt" "text/plain" [7] true).errors
      = initState.errors ++ [fileSizeExceeded "a.txt" (Config.maxFileSize { maxFileCount := some 2 })]
  ∧ (processFile { maxFileCount := some 2 } initState "f" "a.txt" "text/plain" [7] true).assignments
      = initState.assignments :=
  (truncated_parts_dropped { maxFileCount := some 2 } initState "f" "a.txt" "text/plain"
    "v" [7] false false rfl (by decide) rfl).1

/-- Claim C4 counterexample: with a field-size limit of 2, the document
with member b holding the array of one oversized string is attributed to
the field undefined.0 — the rolling last-key variable is still uninitialized
when the array element is revived, because JSON.parse revives children
before their enclosing member — not to the enclosing key b as the claim
states; likewise an oversized leaf under the plain object key k1 is
attributed to undefined.k1 (any key containing a digit is treated as an
index), not to k1 itself. -/
theorem json_index_attribution_counterexample :
    jsonFieldSizeErrors 2 (Json.obj [("b", Json.arr [Json.str "xxxx"])])
      = [fieldSizeExceeded "undefined.0" (some 2)]
  ∧ jsonFieldSizeErrors 2 (Json.obj [("b", Json.arr [Json.str "xxxx"])])
      ≠ [fieldSizeExceeded "b.0" (some 2)]
  ∧ jsonFieldSizeErrors 2 (Json.obj [("k1", Json.str "xxxx")])
      = [fieldSizeExceeded "undefined.k1" (some 2)] := by
  refine ⟨rfl, by decide, rfl⟩

/-- Claim C4 (amended): in the JSON route with a field-size limit configured,
exactly one FIELD_SIZE_EXCEEDED violation is recorded per string-valued leaf
whose length exceeds the limit; a leaf whose reviver key contains a decimal
digit (in particular an array index) is attributed to lastKey.key, where
lastKey is the most recently revived digit-free key in the decoder's
bottom-up traversal order — initially the literal text undefined — rather
than the nearest enclosing object key; a leaf whose key contains no digit is
attributed to that key itself. -/
theorem json_field_size_violations (mfs : Nat) (body : Json)
    (st : String × List Violation) (k s : String) (v : Json) :
    (jsonFieldSizeErrors mfs body).length = oversizedLeaves mfs body
  ∧ (∀ w ∈ jsonFieldSizeErrors mfs body, w.name = "FIELD_SIZE_EXCEEDED")
  ∧ (mfs < s.length → (reviverStep mfs st (k, Json.str s)).2
      = st.2 ++ [fieldSizeExceeded
          (if keyIsIndexLike k then st.1 ++ "." ++ k else k) (some mfs)])
  ∧ (¬ mfs < s.length → (reviverStep mfs st (k, Json.str s)).2 = st.2)
  ∧ (reviverStep mfs st (k, v)).1 = (if keyIsIndexLike k then st.1 else k)
  ∧ jsonFieldSizeErrors mfs body
      = ((reviverCalls "" body).foldl (reviverStep mfs) ("undefined", [])).2 := by
  refine ⟨?_, ?_, ?_, ?_, ?_, rfl⟩
  · have h := foldl_reviverStep_length mfs (reviverCalls "" body) ("undefined", [])
    simpa [jsonFieldSizeErrors, oversizedLeaves] using h
  · intro w hw
    have h := foldl_reviverStep_names mfs (reviverCalls "" body) ("undefined", []) w
      (by simpa [jsonFieldSizeErrors] using hw)
    rcases h with h | h
    · exact absurd h (List.not_mem_nil w)
    · exact h
  · intro hlen
    simp [reviverStep, hlen]
  · intro hlen
    simp [reviverStep, hlen]
  · cases v <;> simp [reviverStep]

/-- Witness for C4 (amended): an oversized string under the index key 0 with
the last-key cursor still uninitialized is attributed to undefined.0. -/
theorem json_field_size_violations_witness :
    (reviverStep 2 ("undefined", []) ("0", Json.str "xxxx")).2
      = [fieldSizeExceeded "undefined.0" (some 2)] :=
  ((json_field_size_violations 2 Json.null ("undefined", []) "0" "xxxx" Json.null).2.2.1
    (by decide)).trans (by decide)

/-- Claim C5 counterexample: two file parts with empty filenames against a
file-count limit of one make the form decoder fire its file-count ceiling —
empty-filename parts do count toward maxFileCount, as the source's own doc
comment states — so the operation fails with FILE_COUNT_EXCEEDED, where the
claim says such parts are never counted. -/
theorem empty_filename_counted_counterexample :
    runEvents { maxFileCount := some 1 } initState
        (busboyFileEvents (some 1)
          [⟨"a", "", "text/plain", [], false⟩, ⟨"b", "", "text/plain", [], false⟩]
          ++ [Event.finish])
      = ({ errors := [fileCountExceeded (some 1)] },
         some ⟨Outcome.failure [fileCountExceeded (some 1)], 0⟩) := rfl

/-- Claim C5 (amended): a file part whose declared filename is empty is
drained and discarded — no per-file side-work, no mime check or violation,
no entry in the result tree — but it does count toward the maxFileCount
limit (per the form decoder's counting, documented on the fileCount
option). -/
theorem empty_filename_skipped (cfg : Config) (s : ParserState)
    (field mimeType : String) (chunks : List Nat) (truncated : Bool)
    (m : Nat) (parts : List Part) (hcount : m < parts.length) :
    processFile cfg s field "" mimeType chunks truncated = s
  ∧ Event.filesLimit ∈ busboyFileEvents (some m) parts := by
  constructor
  · by_cases h1 : fileHandlerRegistered cfg = false <;> simp [processFile, h1]
  · simp [busboyFileEvents, hcount]

/-- Witness for C5 (amended): one empty-filename part against a limit of zero
already fires the ceiling, and the part leaves the state untouched. -/
theorem empty_filename_skipped_witness :
    processFile { maxFileCount := some 1 } initState "a" "" "text/plain" [] false = initState
  ∧ Event.filesLimit ∈ busboyFileEvents (some 0) [⟨"a", "", "text/plain", [], false⟩] :=
  empty_filename_skipped { maxFileCount := some 1 } initState "a" "text/plain" [] false
    0 [⟨"a", "", "text/plain", [], false⟩] (by decide)

/-- Claim C6: after each data chunk the file descriptor's size equals the byte
length of that most recent chunk only, never the running total, so a file
delivered in multiple chunks is finalized with the last chunk's length — for
the chunks 3 and 4 the finalized size is 4, not the total 7. -/
theorem file_size_last_chunk (cfg : Config) (field : String) (value : File)
    (pre chunks : List Nat) (c : Nat) (h : chunks ≠ []) :
    sizeAfterChunks (pre ++ [c]) = c
  ∧ (finalFile cfg field value chunks).size = chunks.getLast h
  ∧ sizeAfterChunks [3, 4] = 4
  ∧ sizeAfterChunks [3, 4] ≠ [3, 4].sum := by
  refine ⟨sizeAfterChunks_append pre c, ?_, rfl, by decide⟩
  have hsz : (finalFile cfg field value chunks).size = sizeAfterChunks chunks := by
    by_cases h5 : cfg.hasOnFile <;> simp [finalFile, h5]
  rw [hsz, sizeAfterChunks_last chunks h]

/-- Witness for C6: a two-chunk file is finalized with the last chunk's
length. -/
theorem file_size_last_chunk_witness :
    (finalFile {} "f" ⟨"a.txt", 0, "text/plain", none⟩ [3, 4]).size
      = [3, 4].getLast (by decide) :=
  (file_size_last_chunk {} "f" ⟨"a.txt", 0, "text/plain", none⟩ [] [3, 4] 0 (by decide)).2.1

/-- Claim C7: an accepted (non-empty-filename) file part whose declared mime
type does not match the configured pattern appends exactly one
FILE_TYPE_REJECTED violation and is otherwise without effect: no onFile
invocation, no disk write, no assignment into the result tree (the stream is
drained by the resume call the branch returns with). -/
theorem mime_rejected_drained (cfg : Config) (s : ParserState)
    (field filename mimeType : String) (chunks : List Nat) (truncated : Bool)
    (hreg : fileHandlerRegistered cfg = true) (hname : filename ≠ "")
    (hrej : mimeRejected cfg ⟨filename, 0, mimeType, none⟩ = true) :
    processFile cfg s field filename mimeType chunks truncated
      = { s with errors := s.errors ++ [fileTypeRejected filename (cfg.mimeType.getD "")] } := by
  simp [processFile, hreg, hname, hrej]

/-- Witness for C7: a text/plain file against an image/png pattern is rejected
with one violation and nothing else changes. -/
theorem mime_rejected_drained_witness :
    processFile
      { maxFileCount := some 5, mimeType := some "image/png",
        accepts := fun f p => f.type == p }
      initState "f" "a.txt" "text/plain" [4] false
      = { errors := [fileTypeRejected "a.txt" "image/png"] } :=
  (mime_rejected_drained
    { maxFileCount := some 5, mimeType := some "image/png",
      accepts := fun f p => f.type == p }
    initState "f" "a.txt" "text/plain" [4] false rfl (by decide) rfl).trans (by decide)

/-- Claim C8: recording a violation never settles the operation before the
stream-finished event — every non-finish event yields no settlement and only
appends to the violation collection, the file-count-ceiling event appends
exactly one FILE_COUNT_EXCEEDED violation and processing continues, a run
settles exactly when the event sequence reaches a finish event, and the
finish event is what settles. -/
theorem violations_never_settle_early (cfg : Config) (s : ParserState) (e : Event)
    (hne : e ≠ Event.finish) :
    (step cfg s e).2 = none
  ∧ (∃ new, (step cfg s e).1.errors = s.errors ++ new)
  ∧ (step cfg s Event.filesLimit).1
      = { s with errors := s.errors ++ [fileCountExceeded cfg.maxFileCount] }
  ∧ (∀ events : List Event,
      (runEvents cfg s events).2.isSome = true ↔ Event.finish ∈ events)
  ∧ (step cfg s Event.finish).2 = some (settle s) :=
  ⟨step_no_settle cfg s e hne, step_errors_mono cfg s e, rfl,
   fun events => runEvents_settles_iff cfg events s, rfl⟩

/-- Witness for C8: the file-count-ceiling event produces no settlement. -/
theorem violations_never_settle_early_witness :
    (step {} initState Event.filesLimit).2 = none :=
  (violations_never_settle_early {} initState Event.filesLimit (by decide)).1

/-- Claim C9 counterexample: a run that recorded a violation is rejected
synchronously inside the finish handler — zero scheduling turns of deferral —
not one scheduling turn past it as the claim states for both outcomes. -/
theorem failure_settles_synchronously :
    runEvents {} initState [Event.filesLimit, Event.finish]
      = ({ errors := [fileCountExceeded none] },
         some ⟨Outcome.failure [fileCountExceeded none], 0⟩) := rfl

/-- Claim C9 (amended): only a successful outcome is deferred by one
scheduling turn past the stream-finished event (so that per-file side-work
continuations can run first, without their completion being awaited); a
failure is delivered synchronously at the finish event itself. -/
theorem settlement_deferral (cfg : Config) (s : ParserState) :
    (s.errors = [] → settle s = ⟨Outcome.success s.assignments, 1⟩)
  ∧ (s.errors ≠ [] → settle s = ⟨Outcome.failure s.errors, 0⟩)
  ∧ step cfg s Event.finish = (s, some (settle s)) := by
  refine ⟨?_, ?_, rfl⟩
  · intro h
    simp [settle, h]
  · intro h
    simp [settle, List.length_pos.mpr h]

/-- Witness for C9 (amended): a clean run is deferred by one turn. -/
theorem settlement_deferral_witness :
    settle initState = ⟨Outcome.success [], 1⟩ :=
  (settlement_deferral {} initState).1 rfl

/-- Claim C10: with none of a fileCount limit, an uploadDir option, or an
onFile handler supplied, the file event handler is not registered: file
parts are complete no-ops — never mime-checked, never sized, never written,
never producing violations, never entering the result tree — and a run over
any event sequence equals the run over that sequence with the file events
removed, so text fields are still decoded normally and the operation can
settle as a success. -/
theorem no_file_handler_noop (cfg : Config) (s : ParserState) (events : List Event)
    (hreg : fileHandlerRegistered cfg = false) :
    (∀ field filename mimeType chunks truncated,
        processFile cfg s field filename mimeType chunks truncated = s)
  ∧ runEvents cfg s events
      = runEvents cfg s (events.filter fun e => !(Event.isFileEvent e)) := by
  constructor
  · intro field filename mimeType chunks truncated
    simp [processFile, hreg]
  · exact runEvents_ignores_files cfg hreg events s

/-- Witness for C10: with an empty configuration a file part is a no-op, the
run equals the file-free run, and the operation settles as a success carrying
the decoded text field. -/
theorem no_file_handler_noop_witness :
    processFile {} initState "f" "a.txt" "text/plain" [5] false = initState
  ∧ runEvents {} initState
      [Event.file "f" "a.txt" "text/plain" [5] false, Event.field "a" "v" false false,
       Event.finish]
    = runEvents {} initState
      ([Event.file "f" "a.txt" "text/plain" [5] false, Event.field "a" "v" false false,
        Event.finish].filter fun e => !(Event.isFileEvent e))
  ∧ runEvents {} initState
      [Event.file "f" "a.txt" "text/plain" [5] false, Event.field "a" "v" false false,
       Event.finish]
    = ({ assignments := [("a", FieldValue.text "v")] },
       some ⟨Outcome.success [("a", FieldValue.text "v")], 1⟩) :=
  ⟨(no_file_handler_noop {} initState [] rfl).1 "f" "a.txt" "text/plain" [5] false,
   (no_file_handler_noop {} initState
      [Event.file "f" "a.txt" "text/plain" [5] false, Event.field "a" "v" false false,
       Event.finish] rfl).2,
   rfl⟩

end BodyParser
